import Mathlib

/-!
Verification development for the provider-namecheap resilience layer
(internal/clients/namecheap: users.go, dns.go; the rate limiter and
circuit breaker shared with internal/webhook).

The Go code is shallowly embedded: durations and timestamps are modelled
as integers (nanosecond counts), float64 delay arithmetic is modelled
over the rationals, and the error values that flow through the client
are modelled by the inductive type GoErr below, which covers exactly the
error shapes produced inside this repository.
-/

namespace Namecheap

/-- Model of the Go error values that circulate inside the client.

  - netTimeout models a value implementing the net.Error interface
    (for example net.DNSError or net.OpError); the flag is the value
    returned by its Timeout method.
  - ctxCanceled and ctxDeadline model context.Canceled and
    context.DeadlineExceeded.  In Go, context.DeadlineExceeded also
    implements net.Error with Timeout returning true, which the
    asNetError projection below reflects.
  - httpError models the repository type HTTPError (users.go).
  - ncError models the repository type Error (the parsed envelope error
    with Number and Description attributes).
  - breakerOpen models the fmt.Errorf value produced by
    CircuitBreaker.Execute when it fails fast.
  - wrap models github.com/pkg/errors Wrap and Wrapf, whose Cause chain
    errors.Is and errors.As traverse.
  - simple models errors.New and fmt.Errorf values with no cause. -/
inductive GoErr where
  | netTimeout (isTimeout : Bool)
  | ctxCanceled
  | ctxDeadline
  | httpError (statusCode : Nat) (message : String)
  | ncError (number : String) (description : String)
  | breakerOpen (failures : Nat) (sinceLastFail : Int)
  | wrap (msg : String) (cause : GoErr)
  | simple (msg : String)
  deriving DecidableEq

/-- Go errors.Is(err, context.Canceled): walks the Cause chain. -/
def errIsCanceled : GoErr → Bool
  | .ctxCanceled => true
  | .wrap _ cause => errIsCanceled cause
  | _ => false

/-- Go errors.Is(err, context.DeadlineExceeded): walks the Cause chain. -/
def errIsDeadline : GoErr → Bool
  | .ctxDeadline => true
  | .wrap _ cause => errIsDeadline cause
  | _ => false

/-- Go errors.As(err, netErr) for the net.Error interface: walks the
chain to the first value implementing net.Error and yields the result
of its Timeout method.  context.DeadlineExceeded implements net.Error
with Timeout returning true; context.Canceled does not implement it. -/
def asNetError : GoErr → Option Bool
  | .netTimeout b => some b
  | .ctxDeadline => some true
  | .wrap _ cause => asNetError cause
  | _ => none

/-- Go errors.As(err, httpErr) for the repository type HTTPError. -/
def asHTTPError : GoErr → Option Nat
  | .httpError code _ => some code
  | .wrap _ cause => asHTTPError cause
  | _ => none

/-- Go errors.As(err, ncErr) for the repository envelope Error type:
yields the Number field. -/
def asNCError : GoErr → Option String
  | .ncError number _ => some number
  | .wrap _ cause => asNCError cause
  | _ => none

/-- Embeds Client.isRetryableError (users_test.go source block, lines
479-517): net.Error values answer their Timeout method; context
cancellation and deadline errors are retryable; HTTP status codes 429,
500, 502, 503, 504 are retryable; Namecheap envelope error numbers
2030280, 2030281 (rate limiting) and 2011170 (temporary unavailability)
are retryable; everything else is not. -/
def isRetryableError (e : GoErr) : Bool :=
  match asNetError e with
  | some t => t
  | none =>
    if errIsDeadline e || errIsCanceled e then true
    else
      let httpRetryable :=
        match asHTTPError e with
        | some code =>
          code == 429 || code == 500 || code == 502 || code == 503 || code == 504
        | none => false
      let ncRetryable :=
        match asNCError e with
        | some number =>
          number == "2030280" || number == "2030281" || number == "2011170"
        | none => false
      httpRetryable || ncRetryable

/-- Embeds RetryConfig (users_test.go source block).  BaseDelay and
MaxDelay are time.Duration values and BackoffFactor and JitterFactor
are float64; all four are modelled over the rationals because
calculateDelay converts the durations to float64 before computing. -/
structure RetryConfig where
  maxRetries : Nat
  baseDelay : ℚ
  maxDelay : ℚ
  backoffFactor : ℚ
  jitterFactor : ℚ

/-- Embeds Client.calculateDelay: exponential backoff
baseDelay * backoffFactor ^ attempt, then jitter
delay * jitterFactor * u added when JitterFactor is positive (u is the
sample of rand.Float64()*2-1, a value in the interval from -1 to 1),
and finally the result is capped at MaxDelay.  Note the cap is applied
after the jitter perturbation. -/
def calculateDelay (config : RetryConfig) (attempt : Nat) (u : ℚ) : ℚ :=
  let delay := config.baseDelay * config.backoffFactor ^ attempt
  let delay := if 0 < config.jitterFactor then delay + delay * config.jitterFactor * u else delay
  if config.maxDelay < delay then config.maxDelay else delay

/-- Modelled from the spec (claim C7 wording, for comparison with
calculateDelay): the delay for attempt i is
min(maxDelay, baseDelay * backoffFactor ^ i), then perturbed by
delay * jitterFraction * u.  This definition follows the claim text,
not the source; calculateDelay above follows the source. -/
def claimedDelay (config : RetryConfig) (attempt : Nat) (u : ℚ) : ℚ :=
  let delay := min config.maxDelay (config.baseDelay * config.backoffFactor ^ attempt)
  delay + delay * config.jitterFactor * u

/-- Result of one run of Client.WithRetry.

  - ok: the function returned nil on some attempt.
  - nonRetryable: a non-retryable error, returned wrapped with the
    message non-retryable error in operation.
  - ctxReturned: the backoff select observed ctx.Done and returned
    ctx.Err (carried here), not the last operation error.
  - exhausted: all attempts failed retryably; the last error is
    returned wrapped with the configured retry count. -/
inductive RetryResult (α : Type) where
  | ok (value : α)
  | nonRetryable (err : GoErr)
  | ctxReturned (err : GoErr)
  | exhausted (last : GoErr) (retries : Nat)
  deriving DecidableEq

/-- The error value WithRetry returns to its caller, as a Go error. -/
def RetryResult.toExcept {α : Type} (op : String) : RetryResult α → Except GoErr α
  | .ok a => .ok a
  | .nonRetryable e => .error (.wrap ("non-retryable error in " ++ op) e)
  | .ctxReturned e => .error e
  | .exhausted e r =>
    .error (.wrap ("operation " ++ op ++ " failed after " ++ toString r ++ " retries") e)

/-- The nil-or-not view of toExcept, as seen by the circuit breaker. -/
def RetryResult.toErr {α : Type} (op : String) (r : RetryResult α) : Option GoErr :=
  match r.toExcept op with
  | .ok _ => none
  | .error e => some e

/-- Loop body of Client.WithRetry (users_test.go source block, lines
431-477), fuel-indexed: fuel counts the loop iterations still allowed,
so the loop is entered with fuel = maxRetries + 1 and the iteration
with fuel = 1 is the final attempt (attempt = maxRetries), after which
the loop falls through to the exhaustion return without sleeping.

fn models the retried closure: fn attempt is what the closure returns
on that attempt (each attempt runs under its own 30 second timeout
context derived from the caller context).  ctxDone attempt tells
whether the caller context is done at the backoff select following
that attempt; when it is, the select returns ctxErrVal, the value of
ctx.Err.  The second component of the result counts how many times fn
was invoked. -/
def withRetryLoop {α : Type} (maxRetries : Nat) (fn : Nat → Except GoErr α)
    (ctxDone : Nat → Bool) (ctxErrVal : GoErr) :
    Nat → Nat → RetryResult α × Nat
  | _, 0 => (.exhausted (.simple "loop not entered") maxRetries, 0)
  | attempt, fuel + 1 =>
    match fn attempt with
    | .ok a => (.ok a, 1)
    | .error e =>
      if isRetryableError e then
        if fuel = 0 then (.exhausted e maxRetries, 1)
        else if ctxDone attempt then (.ctxReturned ctxErrVal, 1)
        else
          ((withRetryLoop maxRetries fn ctxDone ctxErrVal (attempt + 1) fuel).1,
           (withRetryLoop maxRetries fn ctxDone ctxErrVal (attempt + 1) fuel).2 + 1)
      else (.nonRetryable e, 1)

/-- Embeds Client.WithRetry: runs the attempt loop from attempt 0 with
maxRetries + 1 iterations allowed (the Go loop condition is
attempt less than or equal to config.MaxRetries). -/
def withRetry {α : Type} (maxRetries : Nat) (fn : Nat → Except GoErr α)
    (ctxDone : Nat → Bool) (ctxErrVal : GoErr) : RetryResult α × Nat :=
  withRetryLoop maxRetries fn ctxDone ctxErrVal 0 (maxRetries + 1)

/-- Embeds CircuitState (server_test.go source block): CircuitClosed is
normal operation, CircuitOpen fails fast, CircuitHalfOpen is the
recovery probe state. -/
inductive CircuitState where
  | CircuitClosed
  | CircuitOpen
  | CircuitHalfOpen
  deriving DecidableEq

export CircuitState (CircuitClosed CircuitOpen CircuitHalfOpen)

/-- Embeds CircuitBreaker (server_test.go source block): maxFailures
and resetTimeout are the configuration, failures counts consecutive
failures, lastFailTime is the time of the most recent counted failure
(time.Time modelled as an integer instant). -/
structure CircuitBreaker where
  maxFailures : Nat
  resetTimeout : Int
  failures : Nat
  lastFailTime : Int
  state : CircuitState
  deriving DecidableEq

/-- Embeds NewCircuitBreaker: closed, zero failures, zero time value. -/
def newCircuitBreaker (maxFailures : Nat) (resetTimeout : Int) : CircuitBreaker :=
  { maxFailures := maxFailures, resetTimeout := resetTimeout,
    failures := 0, lastFailTime := 0, state := CircuitClosed }

/-- Outcome of one CircuitBreaker.Execute call.  rejected means the
breaker failed fast without invoking the wrapped function, reporting
the failure count and the time since the last failure exactly as the
fmt.Errorf message does; ran err means the wrapped function was
invoked exactly once and Execute returned err (none for nil). -/
inductive ExecOutcome where
  | rejected (failures : Nat) (sinceLastFail : Int)
  | ran (err : Option GoErr)
  deriving DecidableEq

/-- First section of CircuitBreaker.Execute: the lazy Open to HalfOpen
transition when the reset timeout has elapsed since the last failure
(time.Since(lastFailTime) greater than resetTimeout). -/
def CircuitBreaker.afterTransition (cb : CircuitBreaker) (now : Int) : CircuitBreaker :=
  if cb.state = CircuitOpen ∧ cb.resetTimeout < now - cb.lastFailTime then
    { cb with state := CircuitHalfOpen }
  else cb

/-- Failure bookkeeping of CircuitBreaker.Execute: increment the
counter, stamp the failure time, then open the breaker when the
counter reaches maxFailures or when the failing call was the HalfOpen
probe. -/
def CircuitBreaker.recordFailure (cb : CircuitBreaker) (now : Int) : CircuitBreaker :=
  let cb2 := { cb with failures := cb.failures + 1, lastFailTime := now }
  if cb2.maxFailures ≤ cb2.failures then { cb2 with state := CircuitOpen }
  else if cb2.state = CircuitHalfOpen then { cb2 with state := CircuitOpen }
  else cb2

/-- Success bookkeeping of CircuitBreaker.Execute: close the breaker
and reset the counter (a no-op when already Closed with no
failures). -/
def CircuitBreaker.recordSuccess (cb : CircuitBreaker) : CircuitBreaker :=
  if cb.state = CircuitHalfOpen ∨ 0 < cb.failures then
    { cb with state := CircuitClosed, failures := 0 }
  else cb

/-- Embeds CircuitBreaker.Execute (server_test.go source block, lines
541-594) as a sequential step function.  now is the current clock
instant (used both for the time.Since comparison and for the
time.Now written on failure); fnResult is what the wrapped function
returns if it gets invoked (none for nil).  The double-checked lock of
the source collapses to a single transition in this sequential
embedding. -/
def CircuitBreaker.execute (cb : CircuitBreaker) (now : Int) (fnResult : Option GoErr) :
    CircuitBreaker × ExecOutcome :=
  let cb1 := cb.afterTransition now
  if cb1.state = CircuitOpen then
    (cb1, .rejected cb1.failures (now - cb1.lastFailTime))
  else
    match fnResult with
    | some e => (cb1.recordFailure now, .ran (some e))
    | none => (cb1.recordSuccess, .ran none)

/-- Folds a sequence of Execute calls over the breaker: each list entry
is the call instant paired with the result the wrapped function would
produce if invoked. -/
def runCalls (cb : CircuitBreaker) (calls : List (Int × Option GoErr)) : CircuitBreaker :=
  calls.foldl (fun acc c => (acc.execute c.1 c.2).1) cb

/-- Observable events of one Client.makeRequest execution, in order:
the single rate limiter Wait, each HTTP exchange performed by the
retry loop, and the one point where the breaker records the outcome of
the wrapped work. -/
inductive PipeEvent where
  | acquireToken
  | httpExchange
  | breakerOutcome (success : Bool)
  deriving DecidableEq

/-- Predicate for the rate limiter acquisition event. -/
def isAcquireToken : PipeEvent → Bool
  | .acquireToken => true
  | _ => false

/-- Predicate for an HTTP exchange event. -/
def isHttpExchange : PipeEvent → Bool
  | .httpExchange => true
  | _ => false

/-- Predicate for the breaker accounting event. -/
def isBreakerOutcome : PipeEvent → Bool
  | .breakerOutcome _ => true
  | _ => false

/-- Result record of one Client.makeRequest execution: the breaker
state afterwards, the ordered event trace, and the value returned to
the caller. -/
structure MakeRequestOut (α : Type) where
  breaker : CircuitBreaker
  events : List PipeEvent
  result : Except GoErr α

/-- Embeds Client.makeRequest (users.go, lines 796-819): first the
single rateLimiter.Wait (limiterErr is its result; on error makeRequest
returns immediately wrapped as rate limit exceeded), then
circuitBreaker.Execute wrapping WithRetry wrapping the per-attempt
doHTTPRequest closure (here abstracted as fn).  The event trace records
one acquireToken, one httpExchange per retry-loop invocation of fn, and
one breakerOutcome carrying the final success of the wrapped work; when
the breaker rejects, the wrapped work never runs and only the
acquisition event occurs. -/
def makeRequest {α : Type} (cb : CircuitBreaker) (now : Int) (limiterErr : Option GoErr)
    (maxRetries : Nat) (op : String) (fn : Nat → Except GoErr α)
    (ctxDone : Nat → Bool) (ctxErrVal : GoErr) : MakeRequestOut α :=
  match limiterErr with
  | some e => ⟨cb, [.acquireToken], .error (.wrap "rate limit exceeded" e)⟩
  | none =>
    let r := withRetry maxRetries fn ctxDone ctxErrVal
    let fnErr := r.1.toErr op
    let step := cb.execute now fnErr
    match step.2 with
    | .rejected f s => ⟨step.1, [.acquireToken], .error (.breakerOpen f s)⟩
    | .ran _ =>
      ⟨step.1,
       .acquireToken :: (List.replicate r.2 .httpExchange ++ [.breakerOutcome fnErr.isNone]),
       r.1.toExcept op⟩

/-- Parsed view of a response body: either it fails to unmarshal as the
ApiResponse envelope, or it is an envelope with a Status attribute and
a (possibly empty) ordered list of (Number, Description) error
entries. -/
inductive Body where
  | malformed
  | envelope (status : String) (errors : List (String × String))
  deriving DecidableEq

/-- An HTTP response as seen by parseResponse: status code and body. -/
structure HTTPResponse where
  statusCode : Nat
  body : Body
  deriving DecidableEq

/-- What the network yields for one attempt, before doHTTPRequest
inspects it: a transport-level error from httpClient.Do, or a response
with a status code and a body. -/
inductive Exchange where
  | transportErr (e : GoErr)
  | response (statusCode : Nat) (body : Body)
  deriving DecidableEq

/-- Embeds Client.doHTTPRequest (users.go, lines 821-870), error
classification part: transport errors are wrapped; status codes 500
and above and 429 become HTTPError values (these are the only
HTTP-level conditions turned into errors); any other response is
returned as-is, its body unread. -/
def doHTTPRequest (x : Exchange) : Except GoErr HTTPResponse :=
  match x with
  | .transportErr e => .error (.wrap "failed to execute request" e)
  | .response st body =>
    if 500 ≤ st then .error (.httpError st "Server error")
    else if st = 429 then .error (.httpError 429 "Rate limit exceeded")
    else .ok ⟨st, body⟩

/-- Embeds parseResponse (users.go, lines 872-906): non-200 status is a
plain error; a body that fails to unmarshal as the envelope is a
wrapped parse error; an envelope whose Status is not OK returns its
first error entry as an Error value (or a plain unknown-error value
when the entry list is empty); an OK envelope parses into the result
struct (payload unmarshalling into the typed result is abstracted as
succeeding; none means success). -/
def parseResponse (resp : HTTPResponse) : Option GoErr :=
  if resp.statusCode ≠ 200 then some (.simple "API request failed with status")
  else
    match resp.body with
    | .malformed => some (.wrap "failed to parse API response" (.simple "xml syntax error"))
    | .envelope status errs =>
      if status = "OK" then none
      else
        match errs with
        | [] => some (.simple "API request failed with unknown error")
        | (number, description) :: _ => some (.ncError number description)

/-- Models one typed client operation in the style of
Client.GetUserBalances (users.go): makeRequest with the doHTTPRequest
closure over the per-attempt exchanges, then parseResponse on the
returned response, outside the retry loop. -/
def clientOperation (cb : CircuitBreaker) (now : Int) (limiterErr : Option GoErr)
    (maxRetries : Nat) (op : String) (exchanges : Nat → Exchange)
    (ctxDone : Nat → Bool) (ctxErrVal : GoErr) : MakeRequestOut Unit :=
  let out := makeRequest cb now limiterErr maxRetries op
    (fun i => doHTTPRequest (exchanges i)) ctxDone ctxErrVal
  match out.result with
  | .error e =>
    ⟨out.breaker, out.events, .error (.wrap ("failed to make " ++ op ++ " request") e)⟩
  | .ok resp =>
    match parseResponse resp with
    | some e =>
      ⟨out.breaker, out.events, .error (.wrap ("failed to parse " ++ op ++ " response") e)⟩
    | none => ⟨out.breaker, out.events, .ok ()⟩

/-- The credential fields a Client carries (users.go Client struct). -/
structure Credentials where
  apiUser : String
  apiKey : String
  username : String
  clientIP : String

/-- The five fixed query parameters doHTTPRequest sets before the
per-command parameters (users.go, lines 823-828). -/
def fixedQueryParams (c : Credentials) (command : String) : List (String × String) :=
  [("ApiUser", c.apiUser), ("ApiKey", c.apiKey), ("UserName", c.username),
   ("ClientIp", c.clientIP), ("Command", command)]

/-- Go url.Values.Set: replaces the value under the key if present,
otherwise appends the pair. -/
def valuesSet (vs : List (String × String)) (k v : String) : List (String × String) :=
  if vs.any (fun p => p.1 = k) then vs.map (fun p => if p.1 = k then (k, v) else p)
  else vs ++ [(k, v)]

/-- The url.Values doHTTPRequest builds: the fixed credential fields
then each command parameter, all via Set (params is the command
parameter map in some iteration order). -/
def buildValues (c : Credentials) (command : String)
    (params : List (String × String)) : List (String × String) :=
  params.foldl (fun vs p => valuesSet vs p.1 p.2) (fixedQueryParams c command)

/-- Insertion of one pair into a key-sorted pair list, used to model
the key sort performed by url.Values.Encode. -/
def insertByKey (p : String × String) : List (String × String) → List (String × String)
  | [] => [p]
  | q :: rest => if p.1 ≤ q.1 then p :: q :: rest else q :: insertByKey p rest

/-- Go url.Values.Encode: emits the pairs sorted by key (Encode
collects the keys, sorts them, and writes each key with its value).
Percent escaping is not modelled; the query is kept as key-value
pairs. -/
def encodeValues (vs : List (String × String)) : List (String × String) :=
  vs.foldr insertByKey []

/-- The structured log record doHTTPRequest emits at verbosity 1 when
the logger is enabled (users.go, lines 843-847): message, the command
key, and the url key whose value is req.URL.String, the full request
URL whose query component is modelled here by its encoded key-value
pairs. -/
structure LogRecord where
  message : String
  command : String
  urlQuery : List (String × String)

/-- The log output of one doHTTPRequest call: one record when the
logger is enabled, nothing otherwise. -/
def doHTTPRequestLog (c : Credentials) (command : String)
    (params : List (String × String)) (loggerEnabled : Bool) : List LogRecord :=
  if loggerEnabled then
    [⟨"Making API request", command, encodeValues (buildValues c command params)⟩]
  else []

/-- Embeds DNSRecord (dns.go, lines 11-23).  The Type field is named
recordType because Type is not a usable field name in Lean. -/
structure DNSRecord where
  hostID : Int
  name : String
  recordType : String
  address : String
  mxPref : Int
  ttl : Int
  associatedAppTitle : String
  friendlyName : String
  isActive : Bool
  isDDNSEnabled : Bool
  deriving DecidableEq

/-- The match test of the UpdateDNSRecord loop (dns.go, lines 113-115):
an existing record matches the incoming one when the HostIDs are equal
or the (Name, Type) pairs are equal. -/
def matchesForUpdate (existing record : DNSRecord) : Bool :=
  existing.hostID == record.hostID ||
    (existing.name == record.name && existing.recordType == record.recordType)

/-- The in-memory mutation of UpdateDNSRecord: replace the first
matching record (the loop breaks after the first hit); none when no
record matches. -/
def replaceFirst : List DNSRecord → DNSRecord → Option (List DNSRecord)
  | [], _ => none
  | r :: rest, record =>
    if matchesForUpdate r record then some (record :: rest)
    else
      match replaceFirst rest record with
      | some rest2 => some (r :: rest2)
      | none => none

/-- A write command issued to the provider: domains.dns.setHosts with
the complete replacement host set. -/
inductive DNSWrite where
  | setHosts (records : List DNSRecord)
  deriving DecidableEq

/-- Embeds Client.UpdateDNSRecord (dns.go, lines 103-127) after the
get step: existing is the full record set fetched by GetDNSRecords;
the result is either the not-found error with no write issued, or the
single setDNSRecords whole-set write carrying the mutated set. -/
def updateDNSRecord (existing : List DNSRecord) (record : DNSRecord) :
    Except GoErr (List DNSWrite) :=
  match replaceFirst existing record with
  | none => .error (.simple "DNS record not found for update")
  | some updated => .ok [.setHosts updated]

/-! Helper lemmas about the circuit breaker step function. -/

/-- An Open breaker whose timeout has not elapsed is left unchanged by
the lazy transition. -/
theorem afterTransition_open_within (cb : CircuitBreaker) (now : Int)
    (hwithin : now - cb.lastFailTime ≤ cb.resetTimeout) :
    cb.afterTransition now = cb := by
  unfold CircuitBreaker.afterTransition
  rw [if_neg]
  rintro ⟨-, hlt⟩
  exact absurd hwithin (not_le.mpr hlt)

/-- A breaker not in the Open state is left unchanged by the lazy
transition. -/
theorem afterTransition_not_open (cb : CircuitBreaker) (now : Int)
    (hnot : cb.state ≠ CircuitOpen) :
    cb.afterTransition now = cb := by
  unfold CircuitBreaker.afterTransition
  rw [if_neg]
  rintro ⟨h, -⟩
  exact hnot h

/-- The configuration fields survive the lazy transition. -/
theorem afterTransition_preserves_config (cb : CircuitBreaker) (now : Int) :
    (cb.afterTransition now).maxFailures = cb.maxFailures ∧
    (cb.afterTransition now).resetTimeout = cb.resetTimeout ∧
    (cb.afterTransition now).failures = cb.failures ∧
    (cb.afterTransition now).lastFailTime = cb.lastFailTime := by
  unfold CircuitBreaker.afterTransition
  split <;> exact ⟨rfl, rfl, rfl, rfl⟩

/-- The configuration fields survive failure bookkeeping, the counter
increments and the failure time is stamped. -/
theorem recordFailure_fields (cb : CircuitBreaker) (now : Int) :
    (cb.recordFailure now).maxFailures = cb.maxFailures ∧
    (cb.recordFailure now).resetTimeout = cb.resetTimeout ∧
    (cb.recordFailure now).failures = cb.failures + 1 ∧
    (cb.recordFailure now).lastFailTime = now := by
  unfold CircuitBreaker.recordFailure
  dsimp only
  split
  · exact ⟨rfl, rfl, rfl, rfl⟩
  · split <;> exact ⟨rfl, rfl, rfl, rfl⟩

/-- The state after failure bookkeeping: Open exactly when the counter
has reached maxFailures or the probe failed in HalfOpen. -/
theorem recordFailure_state (cb : CircuitBreaker) (now : Int) :
    (cb.recordFailure now).state =
      if cb.maxFailures ≤ cb.failures + 1 then CircuitOpen
      else if cb.state = CircuitHalfOpen then CircuitOpen
      else cb.state := by
  unfold CircuitBreaker.recordFailure
  dsimp only
  split
  · rfl
  · split <;> rfl

/-- The configuration fields survive success bookkeeping. -/
theorem recordSuccess_fields (cb : CircuitBreaker) :
    (cb.recordSuccess).maxFailures = cb.maxFailures ∧
    (cb.recordSuccess).resetTimeout = cb.resetTimeout ∧
    (cb.recordSuccess).lastFailTime = cb.lastFailTime := by
  unfold CircuitBreaker.recordSuccess
  split <;> exact ⟨rfl, rfl, rfl⟩

/-- A breaker that is Open with the reset timeout not yet elapsed
rejects the call and is returned unchanged. -/
theorem execute_open_within (cb : CircuitBreaker) (now : Int) (r : Option GoErr)
    (hopen : cb.state = CircuitOpen)
    (hwithin : now - cb.lastFailTime ≤ cb.resetTimeout) :
    cb.execute now r = (cb, .rejected cb.failures (now - cb.lastFailTime)) := by
  unfold CircuitBreaker.execute
  rw [afterTransition_open_within cb now hwithin, if_pos hopen]

/-- Execute never changes the breaker configuration fields. -/
theorem execute_preserves_config (cb : CircuitBreaker) (now : Int) (r : Option GoErr) :
    (cb.execute now r).1.maxFailures = cb.maxFailures ∧
    (cb.execute now r).1.resetTimeout = cb.resetTimeout := by
  unfold CircuitBreaker.execute
  dsimp only
  have h1 := afterTransition_preserves_config cb now
  split
  · exact ⟨h1.1, h1.2.1⟩
  · cases r with
    | some e =>
      have h2 := recordFailure_fields (cb.afterTransition now) now
      exact ⟨h2.1.trans h1.1, h2.2.1.trans h1.2.1⟩
    | none =>
      have h2 := recordSuccess_fields (cb.afterTransition now)
      exact ⟨h2.1.trans h1.1, h2.2.1.trans h1.2.1⟩

/-- From the Open state, a call whose work fails (or that is rejected)
leaves the breaker Open. -/
theorem execute_open_stays_open (cb : CircuitBreaker) (now : Int) (e : GoErr)
    (hopen : cb.state = CircuitOpen) :
    ((cb.execute now (some e)).1).state = CircuitOpen := by
  by_cases helapsed : cb.resetTimeout < now - cb.lastFailTime
  · have htrans : cb.afterTransition now = { cb with state := CircuitHalfOpen } := by
      unfold CircuitBreaker.afterTransition
      rw [if_pos ⟨hopen, helapsed⟩]
    unfold CircuitBreaker.execute
    rw [htrans]
    dsimp only
    rw [if_neg (show ¬(CircuitHalfOpen = CircuitOpen) by decide)]
    rw [recordFailure_state]
    split
    · rfl
    · simp
  · rw [execute_open_within cb now (some e) hopen (le_of_not_lt helapsed)]
    exact hopen

/-- From the Closed state, a failing call increments the counter, stamps
the failure time, and opens the breaker exactly when the counter has
reached maxFailures. -/
theorem execute_closed_fail (cb : CircuitBreaker) (now : Int) (e : GoErr)
    (hclosed : cb.state = CircuitClosed) :
    (cb.execute now (some e)).1 =
      if cb.maxFailures ≤ cb.failures + 1 then
        { cb with failures := cb.failures + 1, lastFailTime := now, state := CircuitOpen }
      else
        { cb with failures := cb.failures + 1, lastFailTime := now } := by
  have hnot : cb.state ≠ CircuitOpen := by rw [hclosed]; decide
  unfold CircuitBreaker.execute
  dsimp only
  rw [afterTransition_not_open cb now hnot, if_neg hnot]
  unfold CircuitBreaker.recordFailure
  dsimp only
  split
  · rfl
  · simp [hclosed]

/-- From any state other than within-timeout Open, the wrapped work is
run exactly once and Execute reports its result. -/
theorem execute_not_open_ran (cb : CircuitBreaker) (now : Int) (r : Option GoErr)
    (hnot : cb.state ≠ CircuitOpen) :
    (cb.execute now r).2 = .ran r := by
  unfold CircuitBreaker.execute
  rw [afterTransition_not_open cb now hnot, if_neg hnot]
  cases r <;> rfl

/-- runCalls preserves the breaker configuration fields. -/
theorem runCalls_preserves_config (calls : List (Int × Option GoErr)) :
    ∀ cb : CircuitBreaker,
      (runCalls cb calls).maxFailures = cb.maxFailures ∧
      (runCalls cb calls).resetTimeout = cb.resetTimeout := by
  induction calls with
  | nil => intro cb; exact ⟨rfl, rfl⟩
  | cons c rest ih =>
    intro cb
    have h1 := execute_preserves_config cb c.1 c.2
    have h2 := ih ((cb.execute c.1 c.2).1)
    simp only [runCalls, List.foldl_cons] at *
    exact ⟨h2.1.trans h1.1, h2.2.trans h1.2⟩

/-- Invariant induction: a sequence of calls whose work always fails
drives the breaker to Open once enough calls have been made. -/
theorem runCalls_allfail_open (m : Nat) (calls : List (Int × Option GoErr)) :
    ∀ cb : CircuitBreaker, cb.maxFailures = m →
      (∀ c ∈ calls, c.2.isSome = true) →
      (cb.state = CircuitOpen ∨
        (cb.state = CircuitClosed ∧ cb.failures < m ∧ m ≤ cb.failures + calls.length)) →
      (runCalls cb calls).state = CircuitOpen := by
  induction calls with
  | nil =>
    intro cb _ _ hinv
    rcases hinv with hopen | ⟨-, hlt, hle⟩
    · exact hopen
    · simp only [List.length_nil, Nat.add_zero] at hle
      exact absurd hle (not_le.mpr hlt)
  | cons c rest ih =>
    intro cb hm hfail hinv
    obtain ⟨e, he⟩ := Option.isSome_iff_exists.mp (hfail c (List.mem_cons_self c rest))
    have hconfig := execute_preserves_config cb c.1 c.2
    have hrest : ∀ d ∈ rest, d.2.isSome = true := fun d hd => hfail d (List.mem_cons_of_mem c hd)
    simp only [runCalls, List.foldl_cons]
    rcases hinv with hopen | ⟨hclosed, hlt, hle⟩
    · refine ih ((cb.execute c.1 c.2).1) (hconfig.1.trans hm) hrest (Or.inl ?_)
      rw [he]
      exact execute_open_stays_open cb c.1 e hopen
    · rw [he]
      have hstep := execute_closed_fail cb c.1 e hclosed
      by_cases hmax : cb.maxFailures ≤ cb.failures + 1
      · refine ih _ (by rw [hstep, if_pos hmax]; exact hm) hrest (Or.inl ?_)
        rw [hstep, if_pos hmax]
      · refine ih _ (by rw [hstep, if_neg hmax]; exact hm) hrest (Or.inr ?_)
        rw [hstep, if_neg hmax]
        dsimp only
        simp only [List.length_cons] at hle
        exact ⟨hclosed, by omega, by omega⟩

/-- C4: for every sequence of N consecutive failing calls through
CircuitBreaker.Execute with N at least maxFailures, the breaker ends
Open, and every subsequent call made while the reset timeout has not
elapsed since the last failure is rejected with the breaker-open error,
without invoking the wrapped work and without changing any breaker
state. -/
theorem breaker_opens_after_consecutive_failures (m : Nat) (rt : Int)
    (calls : List (Int × Option GoErr))
    (hm : 1 ≤ m) (hfail : ∀ c ∈ calls, c.2.isSome = true)
    (hlen : m ≤ calls.length) :
    (runCalls (newCircuitBreaker m rt) calls).state = CircuitOpen ∧
    (∀ (now : Int) (fnRes : Option GoErr),
      now - (runCalls (newCircuitBreaker m rt) calls).lastFailTime ≤ rt →
      (runCalls (newCircuitBreaker m rt) calls).execute now fnRes =
        (runCalls (newCircuitBreaker m rt) calls,
         ExecOutcome.rejected (runCalls (newCircuitBreaker m rt) calls).failures
           (now - (runCalls (newCircuitBreaker m rt) calls).lastFailTime))) := by
  have hopen : (runCalls (newCircuitBreaker m rt) calls).state = CircuitOpen := by
    refine runCalls_allfail_open m calls (newCircuitBreaker m rt) rfl hfail (Or.inr ?_)
    exact ⟨rfl, hm, by simpa [newCircuitBreaker] using hlen⟩
  refine ⟨hopen, fun now fnRes hwithin => ?_⟩
  have hrt := (runCalls_preserves_config calls (newCircuitBreaker m rt)).2
  exact execute_open_within _ now fnRes hopen (by rw [hrt]; exact hwithin)

/-- Witness for C4 at maxFailures 2, resetTimeout 10 and two failing
calls, with a rejected probe 4 time units after the second failure. -/
theorem breaker_opens_after_consecutive_failures_witness :
    (runCalls (newCircuitBreaker 2 10)
      [(0, some (.simple "boom")), (1, some (.simple "boom"))]).state = CircuitOpen ∧
    (runCalls (newCircuitBreaker 2 10)
        [(0, some (.simple "boom")), (1, some (.simple "boom"))]).execute 5 none =
      (runCalls (newCircuitBreaker 2 10)
        [(0, some (.simple "boom")), (1, some (.simple "boom"))],
       ExecOutcome.rejected 2 4) := by
  have h := breaker_opens_after_consecutive_failures 2 10
    [(0, some (.simple "boom")), (1, some (.simple "boom"))]
    (by decide) (by decide) (by decide)
  refine ⟨h.1, ?_⟩
  have h2 := h.2 5 none (by decide)
  rw [h2]
  rfl

/-- C5: once the reset timeout has elapsed after an Open transition,
the next call is allowed through as the HalfOpen probe: it runs the
wrapped work exactly once; a successful probe closes the breaker and
resets the failure counter to zero; a failing probe reopens the
breaker and restamps lastFailTime with the probe instant, so that
calls within resetTimeout of the failed probe are rejected again. -/
theorem breaker_halfOpen_probe (cb : CircuitBreaker) (now : Int)
    (hopen : cb.state = CircuitOpen)
    (helapsed : cb.resetTimeout < now - cb.lastFailTime) :
    ((cb.execute now none).2 = .ran none ∧
     (cb.execute now none).1.state = CircuitClosed ∧
     (cb.execute now none).1.failures = 0) ∧
    (∀ e : GoErr,
      (cb.execute now (some e)).2 = .ran (some e) ∧
      (cb.execute now (some e)).1.state = CircuitOpen ∧
      (cb.execute now (some e)).1.lastFailTime = now ∧
      (∀ (now2 : Int) (r2 : Option GoErr), now2 - now ≤ cb.resetTimeout →
        ((cb.execute now (some e)).1.execute now2 r2).2 =
          .rejected ((cb.execute now (some e)).1).failures (now2 - now))) := by
  have htrans : cb.afterTransition now = { cb with state := CircuitHalfOpen } := by
    unfold CircuitBreaker.afterTransition
    rw [if_pos ⟨hopen, helapsed⟩]
  have hhalfnot : ¬(CircuitHalfOpen = CircuitOpen) := by decide
  have hexecnone : cb.execute now none =
      ({ cb with state := CircuitClosed, failures := 0 }, .ran none) := by
    unfold CircuitBreaker.execute
    rw [htrans]
    dsimp only
    rw [if_neg hhalfnot]
    unfold CircuitBreaker.recordSuccess
    dsimp only
    rw [if_pos (Or.inl rfl)]
  have hexecsome : ∀ e : GoErr, cb.execute now (some e) =
      ({ cb with failures := cb.failures + 1, lastFailTime := now, state := CircuitOpen },
       .ran (some e)) := by
    intro e
    unfold CircuitBreaker.execute
    rw [htrans]
    dsimp only
    rw [if_neg hhalfnot]
    unfold CircuitBreaker.recordFailure
    dsimp only
    split
    · rfl
    · rw [if_pos rfl]
  refine ⟨⟨?_, ?_, ?_⟩, fun e => ⟨?_, ?_, ?_, fun now2 r2 hwithin => ?_⟩⟩
  · rw [hexecnone]
  · rw [hexecnone]
  · rw [hexecnone]
  · rw [hexecsome e]
  · rw [hexecsome e]
  · rw [hexecsome e]
  · rw [hexecsome e]
    exact congrArg Prod.snd (execute_open_within _ now2 r2 rfl hwithin)

/-- Witness for C5 with maxFailures 2, resetTimeout 10, a breaker that
opened at instant 0 and a probe at instant 11. -/
theorem breaker_halfOpen_probe_witness :
    (((⟨2, 10, 2, 0, CircuitOpen⟩ : CircuitBreaker).execute 11 none).1.state = CircuitClosed ∧
     ((⟨2, 10, 2, 0, CircuitOpen⟩ : CircuitBreaker).execute 11 none).1.failures = 0) ∧
    (((⟨2, 10, 2, 0, CircuitOpen⟩ : CircuitBreaker).execute 11
        (some (.simple "boom"))).1.state = CircuitOpen ∧
     ((⟨2, 10, 2, 0, CircuitOpen⟩ : CircuitBreaker).execute 11
        (some (.simple "boom"))).1.lastFailTime = 11) := by
  have h := breaker_halfOpen_probe (⟨2, 10, 2, 0, CircuitOpen⟩ : CircuitBreaker) 11
    rfl (by decide)
  exact ⟨⟨h.1.2.1, h.1.2.2⟩, ⟨(h.2 (.simple "boom")).2.1, (h.2 (.simple "boom")).2.2.1⟩⟩

/-- C9: a call rejected because the breaker is Open within the reset
timeout leaves the breaker record exactly as it was (mode, failure
counter and last failure time unchanged), does not run the wrapped
work, and is not counted as a failure. -/
theorem breaker_reject_leaves_state_unchanged (cb : CircuitBreaker) (now : Int)
    (fnRes : Option GoErr)
    (hopen : cb.state = CircuitOpen)
    (hwithin : now - cb.lastFailTime ≤ cb.resetTimeout) :
    cb.execute now fnRes = (cb, .rejected cb.failures (now - cb.lastFailTime)) := by
  exact execute_open_within cb now fnRes hopen hwithin

/-- Witness for C9: an Open breaker probed 4 time units after its last
failure, inside the 10 unit reset timeout. -/
theorem breaker_reject_leaves_state_unchanged_witness :
    (⟨3, 10, 3, 0, CircuitOpen⟩ : CircuitBreaker).execute 4 none =
      (⟨3, 10, 3, 0, CircuitOpen⟩, .rejected 3 4) := by
  exact breaker_reject_leaves_state_unchanged ⟨3, 10, 3, 0, CircuitOpen⟩ 4 none rfl (by decide)

/-! Helper lemmas about the retry loop. -/

/-- The retry loop invokes the work at most fuel times. -/
theorem withRetryLoop_count_le {α : Type} (maxRetries : Nat) (fn : Nat → Except GoErr α)
    (ctxDone : Nat → Bool) (ctxErrVal : GoErr) :
    ∀ (fuel attempt : Nat),
      (withRetryLoop maxRetries fn ctxDone ctxErrVal attempt fuel).2 ≤ fuel := by
  intro fuel
  induction fuel with
  | zero => intro attempt; simp [withRetryLoop]
  | succ n ih =>
    intro attempt
    unfold withRetryLoop
    rcases hfn : fn attempt with e | a
    · dsimp only
      split
      · split
        · simp
        · split
          · simp
          · dsimp only
            have := ih (attempt + 1)
            omega
      · simp
    · simp

/-- A run in which every attempt fails retryably and the caller context
is never observed done walks the whole loop and exhausts. -/
theorem withRetryLoop_allfail {α : Type} (maxRetries : Nat) (fn : Nat → Except GoErr α)
    (ctxDone : Nat → Bool) (ctxErrVal : GoErr) (e : Nat → GoErr)
    (hfail : ∀ i, fn i = .error (e i)) (hretry : ∀ i, isRetryableError (e i) = true)
    (hctx : ∀ i, ctxDone i = false) :
    ∀ (fuel attempt : Nat),
      withRetryLoop maxRetries fn ctxDone ctxErrVal attempt (fuel + 1) =
        (.exhausted (e (attempt + fuel)) maxRetries, fuel + 1) := by
  intro fuel
  induction fuel with
  | zero =>
    intro attempt
    unfold withRetryLoop
    rw [hfail attempt]
    simp [hretry attempt]
  | succ n ih =>
    intro attempt
    unfold withRetryLoop
    rw [hfail attempt]
    dsimp only
    rw [if_pos (hretry attempt), if_neg (by omega : ¬(n + 1 = 0)), hctx attempt]
    rw [if_neg (show ¬(false = true) by decide)]
    rw [ih (attempt + 1)]
    dsimp only
    rw [show attempt + 1 + n = attempt + (n + 1) by omega]

/-- C6: for every configuration and every work that always fails with a
retryable error, Client.WithRetry invokes the work exactly
maxRetries + 1 times (the first attempt plus maxRetries additional
retries, matching the specification maxAttempts = maxRetries + 1, so
never more than maxAttempts invocations), and on exhausting all
attempts returns the last observed error wrapped together with the
configured retry count; moreover for arbitrary work the invocation
count never exceeds maxRetries + 1. -/
theorem withRetry_exhaustion (maxRetries : Nat) (fn : Nat → Except GoErr Unit)
    (ctxDone : Nat → Bool) (ctxErrVal : GoErr) (e : Nat → GoErr)
    (hfail : ∀ i, fn i = .error (e i)) (hretry : ∀ i, isRetryableError (e i) = true)
    (hctx : ∀ i, ctxDone i = false) :
    (∀ (fn2 : Nat → Except GoErr Unit) (ctxDone2 : Nat → Bool),
      (withRetry maxRetries fn2 ctxDone2 ctxErrVal).2 ≤ maxRetries + 1) ∧
    (withRetry maxRetries fn ctxDone ctxErrVal).2 = maxRetries + 1 ∧
    (withRetry maxRetries fn ctxDone ctxErrVal).1 = .exhausted (e maxRetries) maxRetries := by
  have h := withRetryLoop_allfail maxRetries fn ctxDone ctxErrVal e hfail hretry hctx
    maxRetries 0
  refine ⟨fun fn2 ctxDone2 => withRetryLoop_count_le maxRetries fn2 ctxDone2 ctxErrVal _ 0,
    ?_, ?_⟩
  · unfold withRetry
    rw [h]
  · unfold withRetry
    rw [h]
    simp

/-- Witness for C6: two configured retries and work that always fails
with HTTP 503 give three invocations and the wrapped exhaustion
result. -/
theorem withRetry_exhaustion_witness :
    (withRetry 2 (fun _ => Except.error (GoErr.httpError 503 "downstream") :
        Nat → Except GoErr Unit) (fun _ => false) GoErr.ctxCanceled).2 = 3 ∧
    (withRetry 2 (fun _ => Except.error (GoErr.httpError 503 "downstream") :
        Nat → Except GoErr Unit) (fun _ => false) GoErr.ctxCanceled).1 =
      RetryResult.exhausted (GoErr.httpError 503 "downstream") 2 := by
  have h := withRetry_exhaustion 2
    (fun _ => Except.error (GoErr.httpError 503 "downstream"))
    (fun _ => false) GoErr.ctxCanceled (fun _ => GoErr.httpError 503 "downstream")
    (fun _ => rfl) (fun _ => rfl) (fun _ => rfl)
  exact ⟨h.2.1, h.2.2⟩

/-- An error whose Cause chain ends in a context error is never seen as
a non-timeout net.Error. -/
theorem asNetError_of_ctx (e : GoErr) :
    (errIsCanceled e || errIsDeadline e) = true →
    asNetError e = none ∨ asNetError e = some true := by
  induction e with
  | wrap m cause ih =>
    intro h
    simp only [errIsCanceled, errIsDeadline] at h
    simp only [asNetError]
    exact ih h
  | ctxCanceled => intro h; exact Or.inl rfl
  | ctxDeadline => intro h; exact Or.inr rfl
  | netTimeout b => intro h; simp [errIsCanceled, errIsDeadline] at h
  | httpError c msg => intro h; simp [errIsCanceled, errIsDeadline] at h
  | ncError n d => intro h; simp [errIsCanceled, errIsDeadline] at h
  | breakerOpen f s => intro h; simp [errIsCanceled, errIsDeadline] at h
  | simple m => intro h; simp [errIsCanceled, errIsDeadline] at h

/-- C10 (amended): context cancellation and deadline errors are
classified retryable by Client.isRetryableError, but when the caller
context itself is done the backoff select of WithRetry returns the
context error after the single failing attempt instead of scheduling
another one; only the final attempt (and only when the context is not
observed done) turns such an error into the wrapped retry-exhaustion
result. -/
theorem ctx_errors_retryable_but_cancellation_surfaced :
    (∀ e : GoErr, (errIsCanceled e || errIsDeadline e) = true →
      isRetryableError e = true) ∧
    (∀ (maxRetries : Nat) (fn : Nat → Except GoErr Unit) (ctxDone : Nat → Bool)
       (ctxErrVal e : GoErr),
      fn 0 = .error e → isRetryableError e = true → ctxDone 0 = true → 1 ≤ maxRetries →
      withRetry maxRetries fn ctxDone ctxErrVal = (.ctxReturned ctxErrVal, 1)) ∧
    (∀ (fn : Nat → Except GoErr Unit) (ctxDone : Nat → Bool) (ctxErrVal e : GoErr),
      fn 0 = .error e → isRetryableError e = true →
      withRetry 0 fn ctxDone ctxErrVal = (.exhausted e 0, 1)) := by
  refine ⟨?_, ?_, ?_⟩
  · intro e h
    unfold isRetryableError
    rcases asNetError_of_ctx e h with hn | hn
    · rw [hn]
      rw [Bool.or_comm] at h
      simp [h]
    · rw [hn]
  · intro maxRetries fn ctxDone ctxErrVal e hfn hretry hdone hpos
    obtain ⟨k, rfl⟩ := Nat.exists_eq_add_of_le hpos
    unfold withRetry withRetryLoop
    rw [hfn]
    simp [hretry, hdone]
  · intro fn ctxDone ctxErrVal e hfn hretry
    unfold withRetry withRetryLoop
    rw [hfn]
    simp [hretry]

/-- Witness for C10 (amended) at concrete inputs. -/
theorem ctx_errors_retryable_but_cancellation_surfaced_witness :
    isRetryableError GoErr.ctxDeadline = true ∧
    withRetry 3 (fun _ => Except.error GoErr.ctxCanceled : Nat → Except GoErr Unit)
        (fun _ => true) GoErr.ctxCanceled =
      ((.ctxReturned GoErr.ctxCanceled : RetryResult Unit), 1) ∧
    withRetry 0 (fun _ => Except.error GoErr.ctxDeadline : Nat → Except GoErr Unit)
        (fun _ => false) GoErr.ctxDeadline =
      ((.exhausted GoErr.ctxDeadline 0 : RetryResult Unit), 1) := by
  refine ⟨?_, ?_, ?_⟩
  · exact ctx_errors_retryable_but_cancellation_surfaced.1 GoErr.ctxDeadline (by decide)
  · exact ctx_errors_retryable_but_cancellation_surfaced.2.1 3
      (fun _ => .error GoErr.ctxCanceled) (fun _ => true) GoErr.ctxCanceled GoErr.ctxCanceled
      rfl (by decide) rfl (by decide)
  · exact ctx_errors_retryable_but_cancellation_surfaced.2.2
      (fun _ => .error GoErr.ctxDeadline) (fun _ => false) GoErr.ctxDeadline GoErr.ctxDeadline
      rfl (by decide)

/-- C10 (counterexample): with the caller context canceled from the
start (every attempt fails with context.Canceled and the backoff
select observes the done channel), WithRetry returns the context error
itself after a single invocation of the work: the attempt is not
scheduled again and the result is not the retry-exhaustion wrapper the
claim predicts. -/
theorem canceled_context_not_rescheduled :
    (withRetry 3 (fun _ => Except.error GoErr.ctxCanceled : Nat → Except GoErr Unit)
        (fun _ => true) GoErr.ctxCanceled).2 = 1 ∧
    (withRetry 3 (fun _ => Except.error GoErr.ctxCanceled : Nat → Except GoErr Unit)
        (fun _ => true) GoErr.ctxCanceled).1
        = (.ctxReturned GoErr.ctxCanceled : RetryResult Unit) ∧
    (.ctxReturned GoErr.ctxCanceled : RetryResult Unit) ≠
      .exhausted GoErr.ctxCanceled 3 := by
  exact ⟨rfl, rfl, by decide⟩

/-- The jitter step of calculateDelay in closed form, for a
non-negative jitter factor. -/
theorem jittered_delay_eq (d jf u : ℚ) (hjf0 : 0 ≤ jf) :
    (if 0 < jf then d + d * jf * u else d) = d * (1 + jf * u) := by
  rcases eq_or_lt_of_le hjf0 with h | h
  · rw [if_neg (by rw [← h]; exact lt_irrefl 0), ← h]
    ring
  · rw [if_pos h]
    ring

/-- calculateDelay in closed form: the jittered exponential value,
capped at maxDelay afterwards. -/
theorem calculateDelay_eq (config : RetryConfig) (attempt : Nat) (u : ℚ)
    (hjf0 : 0 ≤ config.jitterFactor) :
    calculateDelay config attempt u =
      if config.maxDelay <
          config.baseDelay * config.backoffFactor ^ attempt * (1 + config.jitterFactor * u)
      then config.maxDelay
      else config.baseDelay * config.backoffFactor ^ attempt * (1 + config.jitterFactor * u) := by
  unfold calculateDelay
  dsimp only
  rw [jittered_delay_eq _ _ _ hjf0]

/-- C7 (counterexample): with baseDelay 20, maxDelay 10, backoffFactor
1 and jitterFactor 1, at attempt 0 and jitter sample one half, the
source computes 10 (jitter applied first, then the cap) while the
claimed formula (cap first, then perturb) gives 15. -/
theorem calculateDelay_cap_order_counterexample :
    calculateDelay ⟨3, 20, 10, 1, 1⟩ 0 (1 / 2) = 10 ∧
    claimedDelay ⟨3, 20, 10, 1, 1⟩ 0 (1 / 2) = 15 ∧
    (10 : ℚ) ≠ 15 := by
  refine ⟨?_, ?_, by norm_num⟩
  · norm_num [calculateDelay]
  · norm_num [claimedDelay]

/-- C7 (amended): for a configuration with non-negative baseDelay and
maxDelay, backoffFactor at least 1 and jitterFactor between 0 and 1,
and any jitter sample between -1 and 1, the delay of Client.
calculateDelay equals min(maxDelay, baseDelay * backoffFactor ^ i
perturbed by the jitter) — the cap is applied after the perturbation —
and it is never negative, never exceeds maxDelay, and for each fixed
jitter sample is monotonically non-decreasing in the attempt index
(hence non-decreasing in expectation over the jitter
distribution). -/
theorem calculateDelay_bounds_and_monotone (config : RetryConfig) (attempt : Nat) (u : ℚ)
    (hbase : 0 ≤ config.baseDelay) (hfactor : 1 ≤ config.backoffFactor)
    (hjf0 : 0 ≤ config.jitterFactor) (hjf1 : config.jitterFactor ≤ 1)
    (hu1 : -1 ≤ u) (hu2 : u ≤ 1) (hmax : 0 ≤ config.maxDelay) :
    0 ≤ calculateDelay config attempt u ∧
    calculateDelay config attempt u ≤ config.maxDelay ∧
    calculateDelay config attempt u ≤ calculateDelay config (attempt + 1) u := by
  have hf0 : (0 : ℚ) ≤ config.backoffFactor := le_trans zero_le_one hfactor
  have hone : 0 ≤ 1 + config.jitterFactor * u := by nlinarith
  have hD : ∀ k : Nat,
      0 ≤ config.baseDelay * config.backoffFactor ^ k * (1 + config.jitterFactor * u) :=
    fun k => mul_nonneg (mul_nonneg hbase (pow_nonneg hf0 k)) hone
  have hmono : config.baseDelay * config.backoffFactor ^ attempt * (1 + config.jitterFactor * u) ≤
      config.baseDelay * config.backoffFactor ^ (attempt + 1) * (1 + config.jitterFactor * u) := by
    have hpow : config.backoffFactor ^ attempt ≤ config.backoffFactor ^ (attempt + 1) :=
      pow_le_pow_right₀ hfactor (Nat.le_succ attempt)
    have := mul_le_mul_of_nonneg_left hpow hbase
    exact mul_le_mul_of_nonneg_right this hone
  rw [calculateDelay_eq config attempt u hjf0, calculateDelay_eq config (attempt + 1) u hjf0]
  refine ⟨?_, ?_, ?_⟩
  · split
    · exact hmax
    · exact hD attempt
  · split
    · exact le_refl _
    · rename_i h
      exact le_of_not_lt h
  · split <;> split
    · exact le_refl _
    · rename_i h1 h2
      exact le_of_lt (lt_of_lt_of_le h1 hmono)
    · rename_i h1 h2
      exact le_of_not_lt h1
    · exact hmono

/-- Witness for C7 (amended) at baseDelay 100, maxDelay 30,
backoffFactor 2, jitterFactor one tenth, sample one half, attempt 0. -/
theorem calculateDelay_bounds_and_monotone_witness :
    0 ≤ calculateDelay ⟨3, 100, 30, 2, 1 / 10⟩ 0 (1 / 2) ∧
    calculateDelay ⟨3, 100, 30, 2, 1 / 10⟩ 0 (1 / 2) ≤ (30 : ℚ) ∧
    calculateDelay ⟨3, 100, 30, 2, 1 / 10⟩ 0 (1 / 2) ≤
      calculateDelay ⟨3, 100, 30, 2, 1 / 10⟩ 1 (1 / 2) := by
  exact calculateDelay_bounds_and_monotone ⟨3, 100, 30, 2, 1 / 10⟩ 0 (1 / 2)
    (by norm_num) (by norm_num) (by norm_num) (by norm_num)
    (by norm_num) (by norm_num) (by norm_num)

/-- Counting a predicate over a replicated list. -/
theorem countP_replicate_eq {β : Type} (p : β → Bool) (k : Nat) (a : β) :
    (List.replicate k a).countP p = if p a then k else 0 := by
  induction k with
  | zero => simp
  | succ n ih =>
    simp [List.replicate_succ, List.countP_cons, ih]
    split <;> omega

/-- C1 (counterexample): a command whose first HTTP attempt fails with
a retryable 503 and whose second attempt succeeds performs two HTTP
exchanges inside the retry loop, yet the rate limiter is acquired only
once — not once per attempt as the claim states (1 is not 2). -/
theorem makeRequest_acquire_not_per_attempt :
    ((makeRequest (newCircuitBreaker 5 30) 0 none 3 "cmd"
        (fun n => if n = 0 then Except.error (GoErr.httpError 503 "Server error")
                  else Except.ok ())
        (fun _ => false) GoErr.ctxCanceled).events.countP isHttpExchange = 2) ∧
    ((makeRequest (newCircuitBreaker 5 30) 0 none 3 "cmd"
        (fun n => if n = 0 then Except.error (GoErr.httpError 503 "Server error")
                  else Except.ok ())
        (fun _ => false) GoErr.ctxCanceled).events.countP isAcquireToken = 1) ∧
    (1 : Nat) ≠ 2 := by
  exact ⟨rfl, rfl, by decide⟩

/-- C1 (amended): the circuit breaker wraps the whole retry loop, so
breaker accounting happens exactly once per externally visible command
(one breakerOutcome event, carrying only the final outcome of the
wrapped work), but the rate limiter is acquired exactly once per
command, before the breaker — not once per retry attempt: with the
breaker closed, the acquisition count is 1 regardless of how many
HTTP exchanges the retry loop performs. -/
theorem makeRequest_limiter_once_per_command {α : Type} (cb : CircuitBreaker) (now : Int)
    (maxRetries : Nat) (op : String) (fn : Nat → Except GoErr α)
    (ctxDone : Nat → Bool) (ctxErrVal : GoErr)
    (hclosed : cb.state = CircuitClosed) :
    ((makeRequest cb now none maxRetries op fn ctxDone ctxErrVal).events.countP
        isAcquireToken = 1) ∧
    ((makeRequest cb now none maxRetries op fn ctxDone ctxErrVal).events.countP
        isHttpExchange = (withRetry maxRetries fn ctxDone ctxErrVal).2) ∧
    ((makeRequest cb now none maxRetries op fn ctxDone ctxErrVal).events.countP
        isBreakerOutcome = 1) := by
  have hnot : cb.state ≠ CircuitOpen := by rw [hclosed]; decide
  have hran := execute_not_open_ran cb now
    (RetryResult.toErr op (withRetry maxRetries fn ctxDone ctxErrVal).1) hnot
  unfold makeRequest
  dsimp only
  rw [hran]
  dsimp only
  simp [List.countP_cons, List.countP_append, countP_replicate_eq,
    isAcquireToken, isHttpExchange, isBreakerOutcome]

/-- Witness for C1 (amended): a fresh closed breaker, two attempts
(503 then success), still a single limiter acquisition. -/
theorem makeRequest_limiter_once_per_command_witness :
    ((makeRequest (newCircuitBreaker 5 30) 0 none 3 "cmd"
        (fun n => if n = 0 then Except.error (GoErr.httpError 503 "Server error")
                  else (Except.ok () : Except GoErr Unit))
        (fun _ => false) GoErr.ctxCanceled).events.countP isAcquireToken = 1) ∧
    ((makeRequest (newCircuitBreaker 5 30) 0 none 3 "cmd"
        (fun n => if n = 0 then Except.error (GoErr.httpError 503 "Server error")
                  else (Except.ok () : Except GoErr Unit))
        (fun _ => false) GoErr.ctxCanceled).events.countP isBreakerOutcome = 1) := by
  have h := makeRequest_limiter_once_per_command (newCircuitBreaker 5 30) 0 3 "cmd"
    (fun n => if n = 0 then Except.error (GoErr.httpError 503 "Server error")
              else (Except.ok () : Except GoErr Unit))
    (fun _ => false) GoErr.ctxCanceled rfl
  exact ⟨h.1, h.2.2⟩

/-- C2: the request encoding is the deterministic key-sorted
serialization of the command parameters plus the fixed credential
fields, but doHTTPRequest then logs the full request URL at verbosity
1, and that URL contains the ApiKey query parameter: with the logger
enabled, the API key (here the value testkey) is written to the logger
sink, contradicting the never-logs-the-key claim. -/
theorem api_key_written_to_logger :
    doHTTPRequestLog ⟨"testuser", "testkey", "testuser", "127.0.0.1"⟩
        "namecheap.users.getBalances" [("SLD", "example")] true =
      [⟨"Making API request", "namecheap.users.getBalances",
        [("ApiKey", "testkey"), ("ApiUser", "testuser"), ("ClientIp", "127.0.0.1"),
         ("Command", "namecheap.users.getBalances"), ("SLD", "example"),
         ("UserName", "testuser")]⟩] ∧
    ("ApiKey", "testkey") ∈
      (doHTTPRequestLog ⟨"testuser", "testkey", "testuser", "127.0.0.1"⟩
        "namecheap.users.getBalances" [("SLD", "example")] true).foldr
        (fun rec acc => rec.urlQuery ++ acc) [] := by
  constructor
  · simp +decide [doHTTPRequestLog, encodeValues, buildValues, valuesSet,
      fixedQueryParams, insertByKey]
  · simp +decide [doHTTPRequestLog, encodeValues, buildValues, valuesSet,
      fixedQueryParams, insertByKey]

/-- C3: an HTTP 200 response carrying an ERROR envelope whose first
error code 2030280 is in the retryable set of isRetryableError is
nonetheless returned to the caller after a single HTTP exchange:
parseResponse runs outside the retry loop, so the envelope error never
reaches the retry classifier and the command is not retried. -/
theorem envelope_rate_limit_error_not_retried :
    ((clientOperation (newCircuitBreaker 5 30) 0 none 3 "users.getBalances"
        (fun _ => .response 200 (.envelope "ERROR" [("2030280", "Too many requests")]))
        (fun _ => false) .ctxCanceled).events.countP isHttpExchange = 1) ∧
    ((clientOperation (newCircuitBreaker 5 30) 0 none 3 "users.getBalances"
        (fun _ => .response 200 (.envelope "ERROR" [("2030280", "Too many requests")]))
        (fun _ => false) .ctxCanceled).result =
      .error (.wrap "failed to parse users.getBalances response"
        (.ncError "2030280" "Too many requests"))) ∧
    isRetryableError (.ncError "2030280" "Too many requests") = true := by
  exact ⟨rfl, rfl, rfl⟩

/-- No-match case of the UpdateDNSRecord scan. -/
theorem replaceFirst_none (record : DNSRecord) :
    ∀ l : List DNSRecord, (∀ r ∈ l, matchesForUpdate r record = false) →
      replaceFirst l record = none := by
  intro l
  induction l with
  | nil => intro _; rfl
  | cons r rest ih =>
    intro h
    unfold replaceFirst
    rw [if_neg (by simp [h r (List.mem_cons_self r rest)])]
    rw [ih (fun d hd => h d (List.mem_cons_of_mem r hd))]

/-- First-match case of the UpdateDNSRecord scan: the record at the
first matching index is replaced and everything else is kept. -/
theorem replaceFirst_some (record : DNSRecord) :
    ∀ (l : List DNSRecord) (i : Nat) (h : i < l.length),
      (∀ (j : Nat) (hj : j < i), matchesForUpdate (l.get ⟨j, lt_trans hj h⟩) record = false) →
      matchesForUpdate (l.get ⟨i, h⟩) record = true →
      replaceFirst l record = some (l.set i record) := by
  intro l
  induction l with
  | nil => intro i h; exact absurd h (by simp)
  | cons r rest ih =>
    intro i h hbefore hmatch
    cases i with
    | zero =>
      have hm : matchesForUpdate r record = true := hmatch
      unfold replaceFirst
      rw [if_pos hm]
      rfl
    | succ k =>
      have hhead : matchesForUpdate r record = false :=
        hbefore 0 (Nat.succ_pos k)
      have hk : k < rest.length := Nat.lt_of_succ_lt_succ h
      have hm : matchesForUpdate (rest.get ⟨k, hk⟩) record = true := hmatch
      have hb : ∀ (j : Nat) (hj : j < k),
          matchesForUpdate (rest.get ⟨j, lt_trans hj hk⟩) record = false :=
        fun j hj => hbefore (j + 1) (Nat.succ_lt_succ hj)
      unfold replaceFirst
      rw [if_neg (by simp [hhead])]
      rw [ih k hk hb hm]
      rfl

/-- C8: UpdateDNSRecord is read-modify-write over the whole host set:
when no fetched record matches by HostID or by (Name, Type) it returns
the not-found error and issues no write, and when the first match is
at index i it issues exactly one whole-set setHosts write whose
content is the fetched set with index i replaced by the new record and
every other entry unchanged. -/
theorem updateDNSRecord_read_modify_write (existing : List DNSRecord) (record : DNSRecord) :
    ((∀ r ∈ existing, matchesForUpdate r record = false) →
      updateDNSRecord existing record = .error (.simple "DNS record not found for update")) ∧
    (∀ (i : Nat) (h : i < existing.length),
      (∀ (j : Nat) (hj : j < i),
        matchesForUpdate (existing.get ⟨j, lt_trans hj h⟩) record = false) →
      matchesForUpdate (existing.get ⟨i, h⟩) record = true →
      updateDNSRecord existing record = .ok [.setHosts (existing.set i record)]) := by
  constructor
  · intro hnone
    unfold updateDNSRecord
    rw [replaceFirst_none record existing hnone]
  · intro i h hbefore hmatch
    unfold updateDNSRecord
    rw [replaceFirst_some record existing i h hbefore hmatch]

/-- Witness for C8 on a three-record set whose first match (by Name
and Type) is at index 1. -/
theorem updateDNSRecord_read_modify_write_witness :
    updateDNSRecord
        [⟨1, "mail", "MX", "10.0.0.1", 10, 300, "", "", true, false⟩,
         ⟨2, "www", "A", "10.0.0.2", 0, 300, "", "", true, false⟩,
         ⟨3, "www", "TXT", "v1", 0, 300, "", "", true, false⟩]
        ⟨9, "www", "A", "10.9.9.9", 0, 600, "", "", true, false⟩ =
      .ok [.setHosts
        [⟨1, "mail", "MX", "10.0.0.1", 10, 300, "", "", true, false⟩,
         ⟨9, "www", "A", "10.9.9.9", 0, 600, "", "", true, false⟩,
         ⟨3, "www", "TXT", "v1", 0, 300, "", "", true, false⟩]] := by
  have h := (updateDNSRecord_read_modify_write
    [⟨1, "mail", "MX", "10.0.0.1", 10, 300, "", "", true, false⟩,
     ⟨2, "www", "A", "10.0.0.2", 0, 300, "", "", true, false⟩,
     ⟨3, "www", "TXT", "v1", 0, 300, "", "", true, false⟩]
    ⟨9, "www", "A", "10.9.9.9", 0, 600, "", "", true, false⟩).2 1 (by decide)
    (by decide) (by decide)
  exact h

end Namecheap
